import Mathlib

/-!
Verification of the Solara Session & Sync Gateway
(`src/functions/api/google-auth.ts`).

The file shallowly embeds the data model and the request handlers of the
repository:

* JSON values are modelled by an inductive `Json` (JS numbers are modelled by
  `Int`; every numeric value the handlers manipulate is an integral
  millisecond timestamp or a count).
* The D1 database is modelled as a list of rows `(table, user_id, key, value)`
  with first-match lookup; `upsertRow` mirrors the
  `INSERT ... ON CONFLICT(user_id, key) DO UPDATE` statements and
  `deleteRows` mirrors `DELETE FROM t WHERE user_id = ?1 AND key = ?2`.
  The `PRIMARY KEY (user_id, key)` schema keeps at most one row per key, so
  first-match update is exact.  Row order inside a table models insertion
  order; the per-table batches of one request touch disjoint tables, so their
  net effect on the store is the sequential fold used here.
* A JS object under construction (the `data` result object of `handleGet`) is
  an association list `Jmap` with in-place update `jsSet`, matching JS
  property-assignment semantics (insertion order kept, duplicate keys
  collapse).
* The session cookie is modelled at the decoding interface: a request either
  carries no `google_auth` cookie, carries one whose `atob`/`JSON.parse`
  fails, or carries one decoding to a `SessionData`.  Absent JSON fields are
  `none` (JS `undefined`); JS truthiness of the fields the code tests is made
  explicit (`truthyStr`, `truthyNum`).
* `handleGet`, `handlePost`, `handleDelete`, `onRequest` are translated
  branch by branch from the source; they take the current time, the decoded
  cookie state, the (optional) bound store, and the already-parsed request
  parameters (`keys` as produced by the split/trim/filter of the `keys`
  query parameter, the JSON `data` / `keys` body fields).
-/

set_option linter.unusedVariables false

namespace Solara

/-- JSON values as produced by `JSON.parse` and consumed by `JSON.stringify`.
Numbers are modelled as integers. -/
inductive Json where
  | null : Json
  | bool (b : Bool) : Json
  | num (n : Int) : Json
  | str (s : String) : Json
  | arr (elems : List Json) : Json
  | obj (fields : List (String × Json)) : Json

/-- An HTTP response: status, optional JSON body, header list. -/
structure HttpResponse where
  status : Nat
  body : Option Json
  headers : List (String × String)

/-- The constant header object `JSON_HEADERS` of the sync endpoint
(content type plus CORS headers). -/
def JSON_HEADERS : List (String × String) :=
  [("Content-Type", "application/json"),
   ("Access-Control-Allow-Origin", "*"),
   ("Access-Control-Allow-Methods", "GET,POST,DELETE,OPTIONS"),
   ("Access-Control-Allow-Headers", "Content-Type")]

/-- `jsonResponse(body, status)`: a JSON response carrying `JSON_HEADERS`. -/
def jsonResponse (body : Json) (status : Nat) : HttpResponse :=
  { status := status, body := some body, headers := JSON_HEADERS }

/-- The two backing tables (`TABLES.playback` / `TABLES.favorites`). -/
inductive TableName where
  | playback_store : TableName
  | favorites_store : TableName
deriving DecidableEq, Repr

/-- The fixed allow-list `FAVORITE_KEYS`. -/
def FAVORITE_KEYS : List String :=
  ["favoriteSongs", "currentFavoriteIndex", "favoritePlayMode", "favoritePlaybackTime"]

/-- `getTableForKey`: membership in `FAVORITE_KEYS` routes to the favorites
table, everything else to the playback table. -/
def getTableForKey (key : String) : TableName :=
  if key ∈ FAVORITE_KEYS then TableName.favorites_store else TableName.playback_store

/-- The decoded session payload `{userId, email, name, exp}`; `none` models an
absent (JS `undefined`) field. -/
structure SessionData where
  userId : Option String
  email : Option String
  name : Option String
  exp : Option Int
deriving DecidableEq

/-- The `google_auth` cookie of a request, at the decoding interface:
absent, present but failing `atob`/`JSON.parse`, or decoding to a session. -/
inductive CookieState where
  | absent : CookieState
  | invalid : CookieState
  | valid (s : SessionData) : CookieState
deriving DecidableEq

/-- JS truthiness of an optional string field (absent and `""` are falsy). -/
def truthyStr : Option String → Bool
  | some s => s ≠ ""
  | none => false

/-- JS truthiness of an optional numeric field (absent and `0` are falsy). -/
def truthyNum : Option Int → Bool
  | some n => n ≠ 0
  | none => false

/-- The numeric value read off `sessionData.exp` once it passed the
truthiness test (so the default is never observed). -/
def expVal (s : SessionData) : Int := s.exp.getD 0

/-- `getUserIdFromRequest`: returns the session's userId when the cookie
decodes and `sessionData.exp && sessionData.exp > Date.now() &&
sessionData.userId` holds; otherwise `null`. -/
def getUserIdFromRequest (now : Int) (c : CookieState) : Option String :=
  match c with
  | CookieState.valid s =>
      if truthyNum s.exp && decide (expVal s > now) && truthyStr s.userId then s.userId
      else none
  | _ => none

/-- The plain `Content-Type: application/json` header object used by the
auth endpoint (`onRequestPost`). -/
def PLAIN_JSON_HEADERS : List (String × String) :=
  [("Content-Type", "application/json")]

/-- The `{authenticated:false}` response of `onRequestPost`. -/
def authFalseResponse : HttpResponse :=
  { status := 200, body := some (Json.obj [("authenticated", Json.bool false)]),
    headers := PLAIN_JSON_HEADERS }

/-- One field of `JSON.stringify` output: an `undefined` value is omitted. -/
def optField (fieldName : String) (v : Option String) : List (String × Json) :=
  match v with
  | some s => [(fieldName, Json.str s)]
  | none => []

/-- The whoami path of `onRequestPost` (the branch taken when `action` is not
`logout`): absent or undecodable cookie gives `{authenticated:false}`; a
decoded session gives `{authenticated:false}` when
`sessionData.exp && sessionData.exp < Date.now()`, else `{authenticated:true,
user:{id,email,name}}`. -/
def whoAmI (now : Int) (c : CookieState) : HttpResponse :=
  match c with
  | CookieState.valid s =>
      if truthyNum s.exp && decide (expVal s < now) then authFalseResponse
      else
        { status := 200,
          body := some (Json.obj [("authenticated", Json.bool true),
            ("user", Json.obj (optField "id" s.userId ++ optField "email" s.email ++
              optField "name" s.name))]),
          headers := PLAIN_JSON_HEADERS }
  | _ => authFalseResponse

/-- A stored row of `playback_store` / `favorites_store`. -/
structure Row where
  table : TableName
  user_id : String
  key : String
  value : String
deriving DecidableEq

/-- The bound D1 database: the rows of both tables, in insertion order. -/
abbrev Store := List Row

/-- `SELECT value FROM t WHERE user_id = ? AND key = ?` (first match; the
primary key keeps at most one). -/
def storeGet : Store → TableName → String → String → Option String
  | [], _, _, _ => none
  | r :: rest, t, u, k =>
      if r.table = t ∧ r.user_id = u ∧ r.key = k then some r.value else storeGet rest t u k

/-- `INSERT ... ON CONFLICT(user_id, key) DO UPDATE SET value = excluded.value`:
update the matching row in place, or append a fresh row. -/
def upsertRow : Store → TableName → String → String → String → Store
  | [], t, u, k, v => [⟨t, u, k, v⟩]
  | r :: rest, t, u, k, v =>
      if r.table = t ∧ r.user_id = u ∧ r.key = k then { r with value := v } :: rest
      else r :: upsertRow rest t u k v

/-- `DELETE FROM t WHERE user_id = ?1 AND key = ?2`. -/
def deleteRows : Store → TableName → String → String → Store
  | [], _, _, _ => []
  | r :: rest, t, u, k =>
      if r.table = t ∧ r.user_id = u ∧ r.key = k then deleteRows rest t u k
      else r :: deleteRows rest t u k

/-- The net effect of the batched upserts of `handlePost`: each `(key, value)`
entry is routed by `getTableForKey` and upserted for the requesting user. -/
def writeEntries (uid : String) (entries : List (String × String)) (st : Store) : Store :=
  entries.foldl (fun acc p => upsertRow acc (getTableForKey p.1) uid p.1 p.2) st

/-- The net effect of the batched deletes of `handleDelete`. -/
def deleteEntries (uid : String) (keys : List String) (st : Store) : Store :=
  keys.foldl (fun acc k => deleteRows acc (getTableForKey k) uid k) st

/-- A JS object with string-or-null values, as an insertion-ordered
association list. -/
abbrev Jmap := List (String × Option String)

/-- JS property assignment `data[k] = v`: update in place, or append. -/
def jsSet : Jmap → String → Option String → Jmap
  | [], k, v => [(k, v)]
  | p :: rest, k, v => if p.1 = k then (p.1, v) :: rest else p :: jsSet rest k v

/-- Property read on the association list (first match). -/
def jlookup : Jmap → String → Option (Option String)
  | [], _ => none
  | p :: rest, k => if p.1 = k then some p.2 else jlookup rest k

/-- Serialize the `data` object: `null` for seeded-but-absent keys. -/
def jmapToJson (m : Jmap) : Json :=
  Json.obj (m.map (fun p => (p.1, match p.2 with | some s => Json.str s | none => Json.null)))

/-- The `reduce` of `handleGet` grouping requested keys by target table
(playback partition first, favorites second, as in the accumulator literal). -/
def groupKeys (keys : List String) : List String × List String :=
  keys.foldl
    (fun acc k =>
      match getTableForKey k with
      | TableName.playback_store => (acc.1 ++ [k], acc.2)
      | TableName.favorites_store => (acc.1, acc.2 ++ [k]))
    ([], [])

/-- `SELECT key, value FROM t WHERE user_id = ? AND key IN (...)`: the rows of
the requested keys that exist, modelled in requested-key order (SQL row order
is unspecified; every use below is order-insensitive because requested keys
are distinct). -/
def selectRows (st : Store) (uid : String) (t : TableName) (tableKeys : List String) :
    List (String × String) :=
  tableKeys.filterMap (fun k => (storeGet st t uid k).map (fun v => (k, v)))

/-- `SELECT key, value FROM t WHERE user_id = ?`: all rows of one table for
one user, in stored order. -/
def selectAll (st : Store) (uid : String) (t : TableName) : List (String × String) :=
  (st.filter (fun r => decide (r.table = t) && decide (r.user_id = uid))).map
    (fun r => (r.key, r.value))

/-- `keys.forEach((key) => { data[key] = null })`. -/
def seedNulls (keys : List String) : Jmap :=
  keys.foldl (fun m k => jsSet m k none) []

/-- `rows.forEach((row) => { data[row.key] = row.value })`. -/
def overlayRows (rows : List (String × String)) (m : Jmap) : Jmap :=
  rows.foldl (fun acc r => jsSet acc r.1 (some r.2)) m

/-- `handleGet`: availability check, then authentication, then the `status`
probe, then either the keyed read (group, select per table, seed nulls,
overlay rows) or the full read over both tables.  `keys` is the list produced
by splitting the `keys` query parameter on commas, trimming, and dropping
empties; `statusOnly` is the truthiness of the `status` query parameter. -/
def handleGet (now : Int) (c : CookieState) (env : Option Store) (statusOnly : Bool)
    (keys : List String) : HttpResponse :=
  match env with
  | none => jsonResponse (Json.obj [("d1Available", Json.bool false), ("data", Json.obj [])]) 200
  | some st =>
    match getUserIdFromRequest now c with
    | none =>
        jsonResponse (Json.obj [("d1Available", Json.bool false), ("data", Json.obj []),
          ("error", Json.str "Not authenticated")]) 200
    | some uid =>
        if statusOnly then jsonResponse (Json.obj [("d1Available", Json.bool true)]) 200
        else
          let data :=
            if keys.length > 0 then
              let grouped := groupKeys keys
              let rows := selectRows st uid TableName.playback_store grouped.1 ++
                selectRows st uid TableName.favorites_store grouped.2
              overlayRows rows (seedNulls keys)
            else
              overlayRows (selectAll st uid TableName.playback_store ++
                selectAll st uid TableName.favorites_store) []
          jsonResponse (Json.obj [("d1Available", Json.bool true), ("data", jmapToJson data)]) 200

mutual

/-- `String(value)` coercion for the JSON values a write payload can hold
(`null` is handled before this is reached; arrays stringify as their
comma-joined elements with `null` elements blank; plain objects stringify as
`[object Object]`). -/
def jsToString : Json → String
  | Json.null => "null"
  | Json.bool b => cond b "true" "false"
  | Json.num n => toString n
  | Json.str s => s
  | Json.arr elems => jsArrayJoin elems
  | Json.obj _ => "[object Object]"

/-- `Array.prototype.toString`: elements joined by commas, `null` blank. -/
def jsArrayJoin : List Json → String
  | [] => ""
  | [Json.null] => ""
  | [x] => jsToString x
  | Json.null :: rest => "," ++ jsArrayJoin rest
  | x :: rest => jsToString x ++ "," ++ jsArrayJoin rest

end

/-- `value == null ? "" : String(value)` of `handlePost`. -/
def storedString (v : Json) : String :=
  match v with
  | Json.null => ""
  | v => jsToString v

/-- `handlePost`: availability, authentication, payload validation
(`body.data` must be a truthy non-array object), `Boolean(key)` filter,
batched upserts, `{d1Available:true, updated: entries.length}`.  `dataField`
is the parsed `data` field of the request body (`none` when the body fails to
parse or has no `data`). -/
def handlePost (now : Int) (c : CookieState) (env : Option Store) (dataField : Option Json) :
    HttpResponse × Option Store :=
  match env with
  | none =>
      (jsonResponse (Json.obj [("d1Available", Json.bool false), ("data", Json.obj [])]) 200, none)
  | some st =>
    match getUserIdFromRequest now c with
    | none =>
        (jsonResponse (Json.obj [("d1Available", Json.bool false), ("data", Json.obj []),
          ("error", Json.str "Not authenticated")]) 200, some st)
    | some uid =>
      match dataField with
      | some (Json.obj payload) =>
          let entries := payload.filter (fun p => decide (p.1 ≠ ""))
          if entries.length = 0 then
            (jsonResponse (Json.obj [("d1Available", Json.bool true),
              ("updated", Json.num 0)]) 200, some st)
          else
            (jsonResponse (Json.obj [("d1Available", Json.bool true),
              ("updated", Json.num entries.length)]) 200,
             some (writeEntries uid (entries.map (fun p => (p.1, storedString p.2))) st))
      | _ => (jsonResponse (Json.obj [("error", Json.str "Invalid payload")]) 400, some st)

/-- `Array.isArray(body.keys) ? body.keys.filter(k => typeof k === "string"
&& Boolean(k)) : []`. -/
def parseDeleteKeys (keysField : Option Json) : List String :=
  match keysField with
  | some (Json.arr xs) =>
      xs.filterMap (fun v =>
        match v with
        | Json.str s => if s ≠ "" then some s else none
        | _ => none)
  | _ => []

/-- `handleDelete`: availability, authentication, key filtering, batched
deletes, `{d1Available:true, deleted: keys.length}`. -/
def handleDelete (now : Int) (c : CookieState) (env : Option Store) (keysField : Option Json) :
    HttpResponse × Option Store :=
  match env with
  | none => (jsonResponse (Json.obj [("d1Available", Json.bool false)]) 200, none)
  | some st =>
    match getUserIdFromRequest now c with
    | none =>
        (jsonResponse (Json.obj [("d1Available", Json.bool false),
          ("error", Json.str "Not authenticated")]) 200, some st)
    | some uid =>
      let keys := parseDeleteKeys keysField
      if keys.length = 0 then
        (jsonResponse (Json.obj [("d1Available", Json.bool true),
          ("deleted", Json.num 0)]) 200, some st)
      else
        (jsonResponse (Json.obj [("d1Available", Json.bool true),
          ("deleted", Json.num keys.length)]) 200,
         some (deleteEntries uid keys st))

/-- `(request.method || "GET").toUpperCase()` (ASCII uppercasing, spelled out
over the character list so that it evaluates by reduction). -/
def normalizeMethod (method : String) : String :=
  String.mk ((if method = "" then "GET" else method).toList.map Char.toUpper)

/-- The 405 `{error:"Method not allowed"}` response of `onRequest`. -/
def methodNotAllowedResponse : HttpResponse :=
  jsonResponse (Json.obj [("error", Json.str "Method not allowed")]) 405

/-- The 204 empty-body CORS response for `OPTIONS`. -/
def optionsResponse : HttpResponse :=
  { status := 204, body := none, headers := JSON_HEADERS }

/-- The sync endpoint dispatcher `onRequest`.  It is passed the raw method
plus everything the individual handlers consume; the pair returned is the
response together with the store after the request. -/
def onRequest (method : String) (now : Int) (c : CookieState) (env : Option Store)
    (statusOnly : Bool) (keys : List String) (dataField keysField : Option Json) :
    HttpResponse × Option Store :=
  let m := normalizeMethod method
  if m = "OPTIONS" then (optionsResponse, env)
  else if m = "GET" then (handleGet now c env statusOnly keys, env)
  else if m = "POST" then handlePost now c env dataField
  else if m = "DELETE" then handleDelete now c env keysField
  else (methodNotAllowedResponse, env)

/-- `MAX_AGE_SECONDS = 30 * 24 * 60 * 60`. -/
def MAX_AGE_SECONDS : Int := 30 * 24 * 60 * 60

/-- The profile fetched from the userinfo endpoint. -/
structure GoogleUserInfo where
  id : String
  email : String
  name : String
  picture : Option String
deriving DecidableEq

/-- The base64 alphabet. -/
def base64Chars : List Char :=
  "ABCDEFGHIJKLMNOPQRSTUVWXYZabcdefghijklmnopqrstuvwxyz0123456789+/".toList

/-- One base64 digit. -/
def b64char (n : Nat) : Char := base64Chars.getD n 'A'

/-- Standard base64 of a byte list, with `=` padding. -/
def btoaBytes : List Nat → String
  | [] => ""
  | [b1] => String.mk [b64char (b1 / 4), b64char (b1 % 4 * 16), '=', '=']
  | [b1, b2] =>
      String.mk [b64char (b1 / 4), b64char (b1 % 4 * 16 + b2 / 16), b64char (b2 % 16 * 4), '=']
  | b1 :: b2 :: b3 :: rest =>
      String.mk [b64char (b1 / 4), b64char (b1 % 4 * 16 + b2 / 16),
        b64char (b2 % 16 * 4 + b3 / 64), b64char (b3 % 64)] ++ btoaBytes rest

/-- JS `btoa`: base64 over the code points of a Latin-1 string. -/
def btoa (s : String) : String := btoaBytes (s.toList.map (fun ch => ch.toNat % 256))

/-- A lower-case hexadecimal digit. -/
def hexDigit (n : Nat) : Char := "0123456789abcdef".toList.getD n '0'

/-- `JSON.stringify` escaping of one string character. -/
def jsonEscapeChar (ch : Char) : String :=
  if ch = '"' then "\\\""
  else if ch = '\\' then "\\\\"
  else if ch = '\x08' then "\\b"
  else if ch = '\x0c' then "\\f"
  else if ch = '\n' then "\\n"
  else if ch = '\r' then "\\r"
  else if ch = '\t' then "\\t"
  else if ch.toNat < 32 then "\\u00" ++ String.mk [hexDigit (ch.toNat / 16), hexDigit (ch.toNat % 16)]
  else String.mk [ch]

/-- A JSON string literal. -/
def jsonStrLit (s : String) : String :=
  "\"" ++ String.join (s.toList.map jsonEscapeChar) ++ "\""

mutual

/-- `JSON.stringify`. -/
def jsonStringify : Json → String
  | Json.null => "null"
  | Json.bool b => cond b "true" "false"
  | Json.num n => toString n
  | Json.str s => jsonStrLit s
  | Json.arr elems => "[" ++ jsonStringifyElems elems ++ "]"
  | Json.obj fields => "\x7b" ++ jsonStringifyFields fields ++ "\x7d"

/-- `JSON.stringify` of array elements. -/
def jsonStringifyElems : List Json → String
  | [] => ""
  | [x] => jsonStringify x
  | x :: rest => jsonStringify x ++ "," ++ jsonStringifyElems rest

/-- `JSON.stringify` of object fields. -/
def jsonStringifyFields : List (String × Json) → String
  | [] => ""
  | [p] => jsonStrLit p.1 ++ ":" ++ jsonStringify p.2
  | p :: rest => jsonStrLit p.1 ++ ":" ++ jsonStringify p.2 ++ "," ++ jsonStringifyFields rest

end

/-- The session payload built on a successful code exchange:
`{userId, email, name, exp: Date.now() + MAX_AGE_SECONDS * 1000}`. -/
def sessionPayloadJson (u : GoogleUserInfo) (now : Int) : Json :=
  Json.obj [("userId", Json.str u.id), ("email", Json.str u.email), ("name", Json.str u.name),
    ("exp", Json.num (now + MAX_AGE_SECONDS * 1000))]

/-- `btoa(JSON.stringify({userId, email, name, exp}))`. -/
def sessionTokenOf (u : GoogleUserInfo) (now : Int) : String :=
  btoa (jsonStringify (sessionPayloadJson u now))

/-- The `cookieSegments` array built by `onRequestGet`, with `Secure` pushed
exactly when the request URL's protocol is `https:`. -/
def cookieSegments (u : GoogleUserInfo) (now : Int) (isHttps : Bool) : List String :=
  ["google_auth=" ++ sessionTokenOf u now,
   "Max-Age=" ++ toString MAX_AGE_SECONDS,
   "Path=/", "SameSite=Lax", "HttpOnly"] ++ (if isHttps then ["Secure"] else [])

/-- `Response.redirect` as specified by the WHATWG Fetch standard: it accepts
only `(url, status)`; any further argument — the source passes an options
object carrying a `Set-Cookie` header as a third argument — is ignored, and
the produced response's header list holds only `Location`. -/
def responseRedirect (url : String) (status : Nat)
    (ignoredExtra : List (String × String)) : HttpResponse :=
  { status := status, body := none, headers := [("Location", url)] }

/-- The success path of the OAuth callback `onRequestGet`: redirect to
`state || "/"` via `Response.redirect(redirectUrl, 302, { headers:
{ "Set-Cookie": cookieSegments.join("; ") } })`. -/
def authCallbackSuccess (u : GoogleUserInfo) (now : Int) (isHttps : Bool)
    (state : Option String) : HttpResponse :=
  responseRedirect (state.getD "/") 302
    [("Set-Cookie", String.intercalate "; " (cookieSegments u now isHttps))]

/-- First-match field lookup in a JSON object. -/
def lookupField : List (String × Json) → String → Option Json
  | [], _ => none
  | p :: rest, k => if p.1 = k then some p.2 else lookupField rest k

/-- A named field of a response's JSON object body. -/
def respField (r : HttpResponse) (k : String) : Option Json :=
  match r.body with
  | some (Json.obj fields) => lookupField fields k
  | _ => none

/-- First-match association lookup on string pairs (proof infrastructure). -/
def plookup : List (String × String) → String → Option String
  | [], _ => none
  | p :: rest, k => if p.1 = k then some p.2 else plookup rest k

/-- The pointwise effect of overlaying a row list onto a value assignment
(proof infrastructure for reasoning about `overlayRows`). -/
def updFun (g : String → Option String) (rows : List (String × String)) :
    String → Option String :=
  rows.foldl (fun g' r => fun k => if k = r.1 then some r.2 else g' k) g

/-! ### Lemmas about the store -/

theorem storeGet_upsertRow (st : Store) (t : TableName) (u k v : String)
    (t' : TableName) (u' k' : String) :
    storeGet (upsertRow st t u k v) t' u' k' =
      if t = t' ∧ u = u' ∧ k = k' then some v else storeGet st t' u' k' := by
  induction st with
  | nil => simp [upsertRow, storeGet]
  | cons r rest ih =>
      obtain ⟨rt, ru, rk, rv⟩ := r
      by_cases hm : rt = t ∧ ru = u ∧ rk = k
      · obtain ⟨e1, e2, e3⟩ := hm
        subst e1; subst e2; subst e3
        by_cases h : rt = t' ∧ ru = u' ∧ rk = k'
        · obtain ⟨f1, f2, f3⟩ := h
          subst f1; subst f2; subst f3
          simp [upsertRow, storeGet]
        · simp [upsertRow, storeGet, h]
      · by_cases h : rt = t' ∧ ru = u' ∧ rk = k'
        · obtain ⟨f1, f2, f3⟩ := h
          subst f1; subst f2; subst f3
          have hq : ¬ (t = rt ∧ u = ru ∧ k = rk) := fun ⟨a, b, c⟩ => hm ⟨a.symm, b.symm, c.symm⟩
          simp [upsertRow, storeGet, hm, hq]
        · simp [upsertRow, storeGet, hm, h, ih]

theorem storeGet_deleteRows (st : Store) (t : TableName) (u k : String)
    (t' : TableName) (u' k' : String) :
    storeGet (deleteRows st t u k) t' u' k' =
      if t = t' ∧ u = u' ∧ k = k' then none else storeGet st t' u' k' := by
  induction st with
  | nil => simp [deleteRows, storeGet]
  | cons r rest ih =>
      obtain ⟨rt, ru, rk, rv⟩ := r
      by_cases hm : rt = t ∧ ru = u ∧ rk = k
      · obtain ⟨e1, e2, e3⟩ := hm
        subst e1; subst e2; subst e3
        by_cases h : rt = t' ∧ ru = u' ∧ rk = k'
        · obtain ⟨f1, f2, f3⟩ := h
          subst f1; subst f2; subst f3
          simp [deleteRows, ih]
        · simp [deleteRows, storeGet, h, ih]
      · by_cases h : rt = t' ∧ ru = u' ∧ rk = k'
        · obtain ⟨f1, f2, f3⟩ := h
          subst f1; subst f2; subst f3
          have hne : ¬ (t = rt ∧ u = ru ∧ k = rk) := fun ⟨a, b, c⟩ => hm ⟨a.symm, b.symm, c.symm⟩
          simp [deleteRows, storeGet, hm, hne, ih]
        · simp [deleteRows, storeGet, hm, h, ih]

theorem writeEntries_cons (uid : String) (p : String × String)
    (rest : List (String × String)) (st : Store) :
    writeEntries uid (p :: rest) st =
      writeEntries uid rest (upsertRow st (getTableForKey p.1) uid p.1 p.2) := rfl

theorem writeEntries_get_of_not_mem (uid : String) (entries : List (String × String))
    (st : Store) (t' : TableName) (u' k' : String)
    (h : k' ∉ entries.map Prod.fst) :
    storeGet (writeEntries uid entries st) t' u' k' = storeGet st t' u' k' := by
  induction entries generalizing st with
  | nil => rfl
  | cons p rest ih =>
      simp only [List.map_cons, List.mem_cons, not_or] at h
      rw [writeEntries_cons, ih _ h.2, storeGet_upsertRow]
      have : ¬ (getTableForKey p.1 = t' ∧ uid = u' ∧ p.1 = k') :=
        fun hx => h.1 hx.2.2.symm
      rw [if_neg this]

theorem writeEntries_get_mem (uid : String) (entries : List (String × String))
    (st : Store) (k v : String)
    (hnd : (entries.map Prod.fst).Nodup) (hmem : (k, v) ∈ entries) :
    storeGet (writeEntries uid entries st) (getTableForKey k) uid k = some v := by
  induction entries generalizing st with
  | nil => cases hmem
  | cons p rest ih =>
      simp only [List.map_cons, List.nodup_cons] at hnd
      rcases List.mem_cons.mp hmem with heq | hrest
      · have hk : p.1 = k := by rw [← heq]
        have hv : p.2 = v := by rw [← heq]
        rw [writeEntries_cons, hk, hv,
          writeEntries_get_of_not_mem uid rest _ _ _ _ (hk ▸ hnd.1),
          storeGet_upsertRow, if_pos ⟨rfl, rfl, rfl⟩]
      · rw [writeEntries_cons]
        exact ih _ hnd.2 hrest

theorem deleteEntries_cons (uid : String) (k : String) (rest : List String) (st : Store) :
    deleteEntries uid (k :: rest) st =
      deleteEntries uid rest (deleteRows st (getTableForKey k) uid k) := rfl

theorem deleteEntries_get_of_not_mem (uid : String) (keys : List String)
    (st : Store) (t' : TableName) (u' k' : String) (h : k' ∉ keys) :
    storeGet (deleteEntries uid keys st) t' u' k' = storeGet st t' u' k' := by
  induction keys generalizing st with
  | nil => rfl
  | cons a rest ih =>
      simp only [List.mem_cons, not_or] at h
      rw [deleteEntries_cons, ih _ h.2, storeGet_deleteRows]
      exact if_neg (fun hx => h.1 hx.2.2.symm)

theorem deleteEntries_get_mem (uid : String) (keys : List String) (st : Store)
    (k : String) (hmem : k ∈ keys) :
    storeGet (deleteEntries uid keys st) (getTableForKey k) uid k = none := by
  induction keys generalizing st with
  | nil => cases hmem
  | cons a rest ih =>
      by_cases hr : k ∈ rest
      · rw [deleteEntries_cons]
        exact ih _ hr
      · have ha : k = a := by
          rcases List.mem_cons.mp hmem with h | h
          · exact h
          · exact absurd h hr
        subst ha
        rw [deleteEntries_cons, deleteEntries_get_of_not_mem uid rest _ _ _ _ hr,
          storeGet_deleteRows, if_pos ⟨rfl, rfl, rfl⟩]

/-! ### Lemmas about the JS object under construction -/

theorem jlookup_jsSet (m : Jmap) (k : String) (v : Option String) (k' : String) :
    jlookup (jsSet m k v) k' = if k' = k then some v else jlookup m k' := by
  induction m with
  | nil =>
      by_cases h : k' = k
      · subst h; simp [jsSet, jlookup]
      · have h2 : ¬ k = k' := fun hx => h hx.symm
        simp [jsSet, jlookup, h, h2]
  | cons p rest ih =>
      by_cases hp : p.1 = k
      · by_cases h : k' = k
        · subst h
          simp [jsSet, jlookup, hp]
        · have h2 : ¬ k = k' := fun hx => h hx.symm
          simp [jsSet, jlookup, hp, h, h2]
      · by_cases hq : p.1 = k'
        · have : ¬ k' = k := fun hx => hp (hq.trans hx)
          simp [jsSet, jlookup, hp, hq, this]
        · simp [jsSet, jlookup, hp, hq, ih]

theorem jsSet_of_not_mem (m : Jmap) (k : String) (v : Option String)
    (h : k ∉ m.map Prod.fst) : jsSet m k v = m ++ [(k, v)] := by
  induction m with
  | nil => rfl
  | cons p rest ih =>
      simp only [List.map_cons, List.mem_cons, not_or] at h
      have : ¬ p.1 = k := fun hx => h.1 hx.symm
      simp [jsSet, this, ih h.2]

theorem jsSet_map_mem (K : List String) (g : String → Option String) (a : String)
    (v : Option String) (hnd : K.Nodup) (ha : a ∈ K) :
    jsSet (K.map (fun k => (k, g k))) a v =
      K.map (fun k => (k, if k = a then v else g k)) := by
  induction K with
  | nil => cases ha
  | cons k0 rest ih =>
      simp only [List.nodup_cons] at hnd
      by_cases h0 : k0 = a
      · subst h0
        have : ∀ k ∈ rest, (fun k => (k, if k = k0 then v else g k)) k = (fun k => (k, g k)) k := by
          intro k hk
          have : ¬ k = k0 := fun hx => hnd.1 (hx ▸ hk)
          simp [this]
        simp [jsSet, List.map_congr_left this]
      · have ha' : a ∈ rest := by
          rcases List.mem_cons.mp ha with h | h
          · exact absurd h.symm h0
          · exact h
        simp [jsSet, h0, ih hnd.2 ha']

theorem overlayRows_cons (r : String × String) (rows : List (String × String)) (m : Jmap) :
    overlayRows (r :: rows) m = overlayRows rows (jsSet m r.1 (some r.2)) := rfl

theorem updFun_cons (g : String → Option String) (r : String × String)
    (rows : List (String × String)) :
    updFun g (r :: rows) = updFun (fun k => if k = r.1 then some r.2 else g k) rows := rfl

theorem overlayRows_map (K : List String) (rows : List (String × String))
    (g : String → Option String) (hnd : K.Nodup) (hrows : ∀ r ∈ rows, r.1 ∈ K) :
    overlayRows rows (K.map (fun k => (k, g k))) =
      K.map (fun k => (k, updFun g rows k)) := by
  induction rows generalizing g with
  | nil => rfl
  | cons r rest ih =>
      rw [overlayRows_cons, jsSet_map_mem K g r.1 (some r.2) hnd (hrows r (List.mem_cons_self r rest)),
        ih _ (fun x hx => hrows x (List.mem_cons_of_mem r hx)), updFun_cons]

theorem updFun_of_not_mem (g : String → Option String) (rows : List (String × String))
    (k : String) (h : k ∉ rows.map Prod.fst) : updFun g rows k = g k := by
  induction rows generalizing g with
  | nil => rfl
  | cons r rest ih =>
      simp only [List.map_cons, List.mem_cons, not_or] at h
      rw [updFun_cons, ih _ h.2]
      simp [h.1]

theorem updFun_mem (g : String → Option String) (rows : List (String × String))
    (k v : String) (hnd : (rows.map Prod.fst).Nodup) (hmem : (k, v) ∈ rows) :
    updFun g rows k = some v := by
  induction rows generalizing g with
  | nil => cases hmem
  | cons r rest ih =>
      simp only [List.map_cons, List.nodup_cons] at hnd
      rcases List.mem_cons.mp hmem with heq | hrest
      · subst heq
        rw [updFun_cons, updFun_of_not_mem _ _ _ hnd.1]
        simp
      · exact ih _ hnd.2 hrest

theorem seedNulls_eq_map (keys : List String) (hnd : keys.Nodup) :
    seedNulls keys = keys.map (fun k => (k, (none : Option String))) := by
  have main : ∀ (ks : List String) (m : Jmap), ks.Nodup →
      (∀ k ∈ ks, k ∉ m.map Prod.fst) →
      ks.foldl (fun m k => jsSet m k none) m = m ++ ks.map (fun k => (k, (none : Option String))) := by
    intro ks
    induction ks with
    | nil => intro m _ _; simp
    | cons k0 rest ih =>
        intro m hnd' hdisj
        simp only [List.nodup_cons] at hnd'
        rw [List.foldl_cons, jsSet_of_not_mem m k0 none (hdisj k0 (List.mem_cons_self k0 rest)),
          ih _ hnd'.2]
        · simp
        · intro k hk
          simp only [List.map_append, List.mem_append, List.map_cons, List.map_nil]
          rintro (hx | hx)
          · exact hdisj k (List.mem_cons_of_mem k0 hk) hx
          · simp only [List.mem_singleton] at hx
            exact hnd'.1 (hx ▸ hk)
  simpa using main keys [] hnd (by simp)

/-! ### Lemmas about grouping and selection -/

theorem groupKeys_eq (keys : List String) :
    groupKeys keys =
      (keys.filter (fun k => decide (getTableForKey k = TableName.playback_store)),
       keys.filter (fun k => decide (getTableForKey k = TableName.favorites_store))) := by
  have main : ∀ (ks : List String) (acc : List String × List String),
      ks.foldl
        (fun acc k =>
          match getTableForKey k with
          | TableName.playback_store => (acc.1 ++ [k], acc.2)
          | TableName.favorites_store => (acc.1, acc.2 ++ [k])) acc =
      (acc.1 ++ ks.filter (fun k => decide (getTableForKey k = TableName.playback_store)),
       acc.2 ++ ks.filter (fun k => decide (getTableForKey k = TableName.favorites_store))) := by
    intro ks
    induction ks with
    | nil => intro acc; simp
    | cons k rest ih =>
        intro acc
        rw [List.foldl_cons]
        cases h : getTableForKey k with
        | playback_store =>
            simp only [h, ih, List.filter_cons]
            simp [h]
        | favorites_store =>
            simp only [h, ih, List.filter_cons]
            simp [h]
  simpa using main keys ([], [])

theorem selectRows_fst_sublist (st : Store) (uid : String) (t : TableName)
    (tk : List String) : ((selectRows st uid t tk).map Prod.fst).Sublist tk := by
  induction tk with
  | nil => simp [selectRows]
  | cons k rest ih =>
      simp only [selectRows, List.filterMap_cons]
      cases h : storeGet st t uid k with
      | none => exact (List.Sublist.cons k (by simpa [selectRows] using ih))
      | some v => simpa [selectRows] using List.Sublist.cons₂ k ih

theorem mem_selectRows (st : Store) (uid : String) (t : TableName)
    (tk : List String) (k v : String) (hk : k ∈ tk) (hv : storeGet st t uid k = some v) :
    (k, v) ∈ selectRows st uid t tk :=
  List.mem_filterMap.mpr ⟨k, hk, by rw [hv]; rfl⟩

theorem mem_of_mem_selectRows (st : Store) (uid : String) (t : TableName)
    (tk : List String) (r : String × String) (hr : r ∈ selectRows st uid t tk) :
    r.1 ∈ tk := by
  obtain ⟨a, ha, hav⟩ := List.mem_filterMap.mp hr
  cases h : storeGet st t uid a with
  | none => rw [h] at hav; cases hav
  | some v =>
      rw [h] at hav
      simp only [Option.map_some'] at hav
      cases hav
      exact ha

/-! ### Session helper lemmas -/

theorem getUserIdFromRequest_eq_none_of_lt (now e : Int) (s : SessionData)
    (hexp : s.exp = some e) (hlt : e < now) :
    getUserIdFromRequest now (CookieState.valid s) = none := by
  have hd : decide (expVal s > now) = false := by
    apply decide_eq_false
    simp only [expVal, hexp, Option.getD_some, gt_iff_lt, not_lt]
    exact le_of_lt hlt
  simp [getUserIdFromRequest, hd]

theorem whoAmI_authFalse_of_expired (now e : Int) (s : SessionData)
    (hexp : s.exp = some e) (hne : e ≠ 0) (hlt : e < now) :
    whoAmI now (CookieState.valid s) = authFalseResponse := by
  have ht : truthyNum s.exp = true := by simp [truthyNum, hexp, hne]
  have hd : decide (expVal s < now) = true :=
    decide_eq_true (by simpa [expVal, hexp] using hlt)
  simp [whoAmI, ht, hd]

/-! ### Claim theorems -/

/-- C4: the key-to-table routing is a pure function of the key name: exactly
the four names `favoriteSongs`, `currentFavoriteIndex`, `favoritePlayMode`,
`favoritePlaybackTime` route to the favorites table and every other key
routes to the playback table, and the per-request grouping used by the read
path places each key according to `getTableForKey` of that key alone,
independently of the other keys of the request (the write and delete paths
route each entry through the same `getTableForKey`, as `writeEntries` and
`deleteEntries` state). -/
theorem getTableForKey_routing :
    (∀ k : String, getTableForKey k = TableName.favorites_store ↔
      k ∈ ["favoriteSongs", "currentFavoriteIndex", "favoritePlayMode", "favoritePlaybackTime"]) ∧
    (∀ k : String, getTableForKey k = TableName.playback_store ↔
      k ∉ ["favoriteSongs", "currentFavoriteIndex", "favoritePlayMode", "favoritePlaybackTime"]) ∧
    (∀ keys : List String,
      groupKeys keys =
        (keys.filter (fun k => decide (getTableForKey k = TableName.playback_store)),
         keys.filter (fun k => decide (getTableForKey k = TableName.favorites_store)))) := by
  refine ⟨?_, ?_, groupKeys_eq⟩
  · intro k
    by_cases h : k ∈ FAVORITE_KEYS
    · exact iff_of_true (by simp [getTableForKey, h]) h
    · exact iff_of_false (by simp [getTableForKey, h]) h
  · intro k
    by_cases h : k ∈ FAVORITE_KEYS
    · exact iff_of_false (by simp [getTableForKey, h]) (not_not_intro h)
    · exact iff_of_true (by simp [getTableForKey, h]) h

/-- C10: in every sync operation the storage-availability check precedes the
authentication check: with no database bound the response is
`{d1Available:false}` (with `data:{}` for Read and Write, no `data` for
Delete), carries no `error` field at all, and does not depend on the cookie. -/
theorem sync_unavailable_before_auth (now : Int) (c : CookieState) (statusOnly : Bool)
    (keys : List String) (dataField keysField : Option Json) :
    handleGet now c none statusOnly keys =
      jsonResponse (Json.obj [("d1Available", Json.bool false), ("data", Json.obj [])]) 200 ∧
    handlePost now c none dataField =
      (jsonResponse (Json.obj [("d1Available", Json.bool false), ("data", Json.obj [])]) 200,
        none) ∧
    handleDelete now c none keysField =
      (jsonResponse (Json.obj [("d1Available", Json.bool false)]) 200, none) ∧
    respField (handleGet now c none statusOnly keys) "error" = none ∧
    respField (handlePost now c none dataField).1 "error" = none ∧
    respField (handleDelete now c none keysField).1 "error" = none :=
  ⟨rfl, rfl, rfl, rfl, rfl, rfl⟩

/-- C9: a sync request whose method does not normalize to GET, POST, DELETE
or OPTIONS is answered 405 `{"error":"Method not allowed"}` without touching
the cookie or the store, and an OPTIONS request is answered 204 with an empty
body and the CORS headers, the store again untouched. -/
theorem onRequest_method_dispatch (now : Int) (c : CookieState) (env : Option Store)
    (statusOnly : Bool) (keys : List String) (dataField keysField : Option Json) :
    (∀ method : String,
      normalizeMethod method ∉ (["GET", "POST", "DELETE", "OPTIONS"] : List String) →
      onRequest method now c env statusOnly keys dataField keysField =
        (methodNotAllowedResponse, env)) ∧
    onRequest "OPTIONS" now c env statusOnly keys dataField keysField =
      (optionsResponse, env) ∧
    methodNotAllowedResponse.status = 405 ∧
    methodNotAllowedResponse.body = some (Json.obj [("error", Json.str "Method not allowed")]) ∧
    optionsResponse.status = 204 ∧
    optionsResponse.body = none ∧
    optionsResponse.headers = JSON_HEADERS := by
  refine ⟨?_, rfl, rfl, rfl, rfl, rfl, rfl⟩
  intro method h
  simp only [List.mem_cons, List.mem_singleton, not_or] at h
  obtain ⟨h1, h2, h3, h4, _⟩ := h
  simp only [onRequest, if_neg h4, if_neg h1, if_neg h2, if_neg h3]

/-- C9 witness: a PATCH request is answered with the 405 response and the
store is untouched. -/
theorem onRequest_method_dispatch_witness :
    onRequest "PATCH" 0 CookieState.absent (some []) false [] none none =
      (methodNotAllowedResponse, some []) :=
  (onRequest_method_dispatch 0 CookieState.absent (some []) false [] none none).1
    "PATCH" (by decide)

/-- C6: a sync operation invoked with a bound database but without a valid
session responds with HTTP status 200 (not 401) and a body holding
`d1Available:false` and the error string `"Not authenticated"`. -/
theorem sync_unauthenticated_response (now : Int) (c : CookieState) (st : Store)
    (statusOnly : Bool) (keys : List String) (dataField keysField : Option Json)
    (hauth : getUserIdFromRequest now c = none) :
    (handleGet now c (some st) statusOnly keys).status = 200 ∧
    respField (handleGet now c (some st) statusOnly keys) "d1Available" =
      some (Json.bool false) ∧
    respField (handleGet now c (some st) statusOnly keys) "error" =
      some (Json.str "Not authenticated") ∧
    (handlePost now c (some st) dataField).1.status = 200 ∧
    respField (handlePost now c (some st) dataField).1 "d1Available" =
      some (Json.bool false) ∧
    respField (handlePost now c (some st) dataField).1 "error" =
      some (Json.str "Not authenticated") ∧
    (handleDelete now c (some st) keysField).1.status = 200 ∧
    respField (handleDelete now c (some st) keysField).1 "d1Available" =
      some (Json.bool false) ∧
    respField (handleDelete now c (some st) keysField).1 "error" =
      some (Json.str "Not authenticated") := by
  simp only [handleGet, handlePost, handleDelete, hauth]
  exact ⟨rfl, rfl, rfl, rfl, rfl, rfl, rfl, rfl, rfl⟩

/-- C6 witness: a Read with a cookie-less request against a bound empty
database yields 200, `d1Available:false` and `"Not authenticated"` (and the
same for Write and Delete). -/
theorem sync_unauthenticated_response_witness :
    (handleGet 0 CookieState.absent (some []) false []).status = 200 ∧
    respField (handleGet 0 CookieState.absent (some []) false []) "d1Available" =
      some (Json.bool false) ∧
    respField (handleGet 0 CookieState.absent (some []) false []) "error" =
      some (Json.str "Not authenticated") ∧
    (handlePost 0 CookieState.absent (some []) none).1.status = 200 ∧
    respField (handlePost 0 CookieState.absent (some []) none).1 "d1Available" =
      some (Json.bool false) ∧
    respField (handlePost 0 CookieState.absent (some []) none).1 "error" =
      some (Json.str "Not authenticated") ∧
    (handleDelete 0 CookieState.absent (some []) none).1.status = 200 ∧
    respField (handleDelete 0 CookieState.absent (some []) none).1 "d1Available" =
      some (Json.bool false) ∧
    respField (handleDelete 0 CookieState.absent (some []) none).1 "error" =
      some (Json.str "Not authenticated") :=
  sync_unauthenticated_response 0 CookieState.absent [] false [] none none rfl

/-- C5 counterexample: the cookie decodes to a session whose `exp` field is
`0`, which is strictly less than the current time `1`; yet WhoAmI answers
differently from an absent cookie (JS treats `exp: 0` as falsy, skips the
expiry rejection, and reports the user authenticated). -/
theorem expired_like_absent_counterexample :
    (SessionData.mk (some "u") (some "e") (some "n") (some 0)).exp = some 0 ∧
    (0 : Int) < 1 ∧
    whoAmI 1 (CookieState.valid (SessionData.mk (some "u") (some "e") (some "n") (some 0))) ≠
      whoAmI 1 CookieState.absent := by
  refine ⟨rfl, by norm_num, ?_⟩
  intro h
  have h1 : respField (whoAmI 1 (CookieState.valid
      (SessionData.mk (some "u") (some "e") (some "n") (some 0)))) "authenticated" =
      some (Json.bool true) := rfl
  rw [h] at h1
  have h2 : respField (whoAmI 1 CookieState.absent) "authenticated" =
      some (Json.bool false) := rfl
  rw [h2] at h1
  simp at h1

/-- C5 amended: a session cookie whose `exp` field is non-zero and strictly
less than the current time is treated identically to an absent cookie by
Read, Write, Delete and WhoAmI. -/
theorem expired_cookie_like_absent (now e : Int) (s : SessionData) (env : Option Store)
    (statusOnly : Bool) (keys : List String) (dataField keysField : Option Json)
    (hexp : s.exp = some e) (hne : e ≠ 0) (hlt : e < now) :
    handleGet now (CookieState.valid s) env statusOnly keys =
      handleGet now CookieState.absent env statusOnly keys ∧
    handlePost now (CookieState.valid s) env dataField =
      handlePost now CookieState.absent env dataField ∧
    handleDelete now (CookieState.valid s) env keysField =
      handleDelete now CookieState.absent env keysField ∧
    whoAmI now (CookieState.valid s) = whoAmI now CookieState.absent := by
  have huid := getUserIdFromRequest_eq_none_of_lt now e s hexp hlt
  refine ⟨?_, ?_, ?_, ?_⟩
  · cases env with
    | none => rfl
    | some st => simp only [handleGet, huid]; rfl
  · cases env with
    | none => rfl
    | some st => simp only [handlePost, huid]; rfl
  · cases env with
    | none => rfl
    | some st => simp only [handleDelete, huid]; rfl
  · rw [whoAmI_authFalse_of_expired now e s hexp hne hlt]; rfl

/-- C5 witness: at `now = 0`, a session with `exp = -1` produces exactly the
absent-cookie responses on all four operations. -/
theorem expired_cookie_like_absent_witness :
    handleGet 0 (CookieState.valid (SessionData.mk (some "u") none none (some (-1))))
        (some []) false ["a"] =
      handleGet 0 CookieState.absent (some []) false ["a"] ∧
    handlePost 0 (CookieState.valid (SessionData.mk (some "u") none none (some (-1))))
        (some []) none =
      handlePost 0 CookieState.absent (some []) none ∧
    handleDelete 0 (CookieState.valid (SessionData.mk (some "u") none none (some (-1))))
        (some []) none =
      handleDelete 0 CookieState.absent (some []) none ∧
    whoAmI 0 (CookieState.valid (SessionData.mk (some "u") none none (some (-1)))) =
      whoAmI 0 CookieState.absent :=
  expired_cookie_like_absent 0 (-1) (SessionData.mk (some "u") none none (some (-1)))
    (some []) false ["a"] none none rfl (by norm_num) (by norm_num)

/-- C3 counterexample: at `now = 5` the cookie decodes successfully to a
session with `exp = 5`, so the claimed criterion `expiry > now` fails, yet
WhoAmI reports the session authenticated — the claimed iff is false. -/
theorem session_validity_counterexample :
    ¬ (respField (whoAmI 5 (CookieState.valid
        (SessionData.mk (some "u") (some "e") (some "n") (some 5)))) "authenticated" =
          some (Json.bool true) ↔
       (∃ s : SessionData,
          CookieState.valid (SessionData.mk (some "u") (some "e") (some "n") (some 5)) =
            CookieState.valid s ∧ expVal s > 5)) := by
  intro h
  obtain ⟨s, hs, hexp⟩ := h.mp rfl
  injection hs with hs'
  subst hs'
  simp [expVal] at hexp

/-- C3 amended: WhoAmI treats a cookie as authenticated iff it decodes
successfully and it is NOT the case that its `exp` field is truthy (present
and non-zero) and strictly less than now; the Sync Store operations treat a
cookie as authenticated iff it decodes successfully, its `exp` field is
truthy and strictly greater than now, and its `userId` field is truthy (a
non-empty string) — and every sync operation reports `"Not authenticated"`
exactly when `getUserIdFromRequest` rejects the cookie. -/
theorem session_validity (now : Int) (c : CookieState) :
    (respField (whoAmI now c) "authenticated" = some (Json.bool true) ↔
      ∃ s, c = CookieState.valid s ∧
        ¬ (truthyNum s.exp = true ∧ expVal s < now)) ∧
    ((getUserIdFromRequest now c).isSome = true ↔
      ∃ s, c = CookieState.valid s ∧ truthyNum s.exp = true ∧ expVal s > now ∧
        truthyStr s.userId = true) ∧
    (∀ (st : Store) (statusOnly : Bool) (keys : List String),
      respField (handleGet now c (some st) statusOnly keys) "error" =
          some (Json.str "Not authenticated") ↔
        getUserIdFromRequest now c = none) ∧
    (∀ (st : Store) (dataField : Option Json),
      respField (handlePost now c (some st) dataField).1 "error" =
          some (Json.str "Not authenticated") ↔
        getUserIdFromRequest now c = none) ∧
    (∀ (st : Store) (keysField : Option Json),
      respField (handleDelete now c (some st) keysField).1 "error" =
          some (Json.str "Not authenticated") ↔
        getUserIdFromRequest now c = none) := by
  refine ⟨?_, ?_, ?_, ?_, ?_⟩
  · cases c with
    | absent =>
        refine iff_of_false (by simp [whoAmI, authFalseResponse, respField, lookupField]) ?_
        rintro ⟨s, hs, -⟩
        cases hs
    | invalid =>
        refine iff_of_false (by simp [whoAmI, authFalseResponse, respField, lookupField]) ?_
        rintro ⟨s, hs, -⟩
        cases hs
    | valid s =>
        by_cases hcond : (truthyNum s.exp && decide (expVal s < now)) = true
        · refine iff_of_false ?_ ?_
          · simp [whoAmI, hcond, authFalseResponse, respField, lookupField]
          · rintro ⟨s', hs', hn⟩
            injection hs' with h
            subst h
            rw [Bool.and_eq_true, decide_eq_true_eq] at hcond
            exact hn hcond
        · have hb : (truthyNum s.exp && decide (expVal s < now)) = false :=
            Bool.eq_false_iff.mpr hcond
          refine iff_of_true ?_ ?_
          · simp [whoAmI, hb, respField, lookupField]
          · refine ⟨s, rfl, fun hx => hcond ?_⟩
            rw [Bool.and_eq_true, decide_eq_true_eq]
            exact hx
  · cases c with
    | absent =>
        refine iff_of_false (by simp [getUserIdFromRequest]) ?_
        rintro ⟨s, hs, -⟩
        cases hs
    | invalid =>
        refine iff_of_false (by simp [getUserIdFromRequest]) ?_
        rintro ⟨s, hs, -⟩
        cases hs
    | valid s =>
        by_cases hcond :
            (truthyNum s.exp && decide (expVal s > now) && truthyStr s.userId) = true
        · rw [Bool.and_eq_true, Bool.and_eq_true, decide_eq_true_eq] at hcond
          obtain ⟨⟨h1, h2⟩, h3⟩ := hcond
          refine iff_of_true ?_ ⟨s, rfl, h1, h2, h3⟩
          have hiso : s.userId.isSome = true := by
            cases hu : s.userId with
            | none => rw [hu] at h3; simp [truthyStr] at h3
            | some x => rfl
          simp [getUserIdFromRequest, h1, decide_eq_true h2, h3, hiso]
        · have hb := Bool.eq_false_iff.mpr hcond
          refine iff_of_false ?_ ?_
          · simp [getUserIdFromRequest, hb]
          · rintro ⟨s', hs', h1, h2, h3⟩
            injection hs' with h
            subst h
            exact hcond (by rw [Bool.and_eq_true, Bool.and_eq_true, decide_eq_true_eq]
                            exact ⟨⟨h1, h2⟩, h3⟩)
  · intro st statusOnly keys
    cases huid : getUserIdFromRequest now c with
    | none =>
        refine iff_of_true ?_ rfl
        simp only [handleGet, huid]
        rfl
    | some uid =>
        refine iff_of_false ?_ (by simp)
        simp only [handleGet, huid]
        cases statusOnly with
        | true => simp [respField, jsonResponse, lookupField]
        | false =>
            split <;> simp [respField, jsonResponse, lookupField, jmapToJson]
  · intro st dataField
    cases huid : getUserIdFromRequest now c with
    | none =>
        refine iff_of_true ?_ rfl
        simp only [handlePost, huid]
        rfl
    | some uid =>
        refine iff_of_false ?_ (by simp)
        rcases dataField with _ | j
        · simp only [handlePost, huid]
          simp [respField, jsonResponse, lookupField]
        · cases j with
          | obj payload =>
              simp only [handlePost, huid]
              by_cases h : (List.filter (fun p => decide (p.1 ≠ "")) payload).length = 0
              · rw [if_pos h]
                simp [respField, jsonResponse, lookupField]
              · rw [if_neg h]
                simp [respField, jsonResponse, lookupField]
          | null =>
              simp only [handlePost, huid]
              simp [respField, jsonResponse, lookupField]
          | bool b =>
              simp only [handlePost, huid]
              simp [respField, jsonResponse, lookupField]
          | num n =>
              simp only [handlePost, huid]
              simp [respField, jsonResponse, lookupField]
          | str s' =>
              simp only [handlePost, huid]
              simp [respField, jsonResponse, lookupField]
          | arr elems =>
              simp only [handlePost, huid]
              simp [respField, jsonResponse, lookupField]
  · intro st keysField
    cases huid : getUserIdFromRequest now c with
    | none =>
        refine iff_of_true ?_ rfl
        simp only [handleDelete, huid]
        rfl
    | some uid =>
        refine iff_of_false ?_ (by simp)
        simp only [handleDelete, huid]
        by_cases h : (parseDeleteKeys keysField).length = 0
        · rw [if_pos h]
          simp [respField, jsonResponse, lookupField]
        · rw [if_neg h]
          simp [respField, jsonResponse, lookupField]

/-- C7 counterexample: an authenticated Write against a bound database whose
payload is the one-entry object `{"": "x"}` answers `updated: 0`, not the
input-mapping size `1` — the empty-string key is filtered out before
counting. -/
theorem write_updated_counterexample :
    respField (handlePost 0 (CookieState.valid (SessionData.mk (some "u") none none (some 10)))
        (some []) (some (Json.obj [("", Json.str "x")]))).1 "updated" = some (Json.num 0) ∧
    ([("", Json.str "x")] : List (String × Json)).length = 1 :=
  ⟨rfl, rfl⟩

/-- C7 amended: an authenticated Write whose payload is a (non-array) object
answers `{d1Available:true, updated: n}` where `n` is the number of entries
of the input mapping whose key is a non-empty string; the count reflects the
input, not the rows actually changed in storage. -/
theorem write_updated_count (now : Int) (c : CookieState) (uid : String) (st : Store)
    (payload : List (String × Json)) (hauth : getUserIdFromRequest now c = some uid) :
    (handlePost now c (some st) (some (Json.obj payload))).1 =
      jsonResponse (Json.obj [("d1Available", Json.bool true),
        ("updated",
          Json.num ((payload.filter (fun p => decide (p.1 ≠ ""))).length : Int))]) 200 := by
  simp only [handlePost, hauth]
  by_cases h : (List.filter (fun p => decide (p.1 ≠ "")) payload).length = 0
  · rw [if_pos h, h]
    simp
  · rw [if_neg h]

/-- C7 witness: writing `{"a":"1","":"x"}` with a valid session and a bound
empty database answers `updated: 1`. -/
theorem write_updated_count_witness :
    (handlePost 0 (CookieState.valid (SessionData.mk (some "u") none none (some 10))) (some [])
        (some (Json.obj [("a", Json.str "1"), ("", Json.str "x")]))).1 =
      jsonResponse (Json.obj [("d1Available", Json.bool true), ("updated", Json.num 1)]) 200 :=
  (write_updated_count 0 (CookieState.valid (SessionData.mk (some "u") none none (some 10)))
    "u" [] [("a", Json.str "1"), ("", Json.str "x")] rfl).trans rfl

/-- C8 (code bug): the OAuth callback builds the claimed cookie — base64 of
the JSON session payload with `exp = now + 30` days in milliseconds,
`Max-Age=2592000`, `Path=/`, `SameSite=Lax`, `HttpOnly`, and `Secure`
exactly on https — but passes it as a third argument to `Response.redirect`,
which the Fetch standard ignores, so the issued redirect carries no
`Set-Cookie` header at all. -/
theorem authCallback_no_set_cookie :
    (∀ (u : GoogleUserInfo) (now : Int) (isHttps : Bool) (state : Option String),
      (authCallbackSuccess u now isHttps state).headers = [("Location", state.getD "/")]) ∧
    (authCallbackSuccess ⟨"u", "e", "n", none⟩ 0 true (some "/home")).headers.find?
        (fun p => decide (p.1 = "Set-Cookie")) = none ∧
    (∀ (u : GoogleUserInfo) (now : Int),
      sessionPayloadJson u now =
        Json.obj [("userId", Json.str u.id), ("email", Json.str u.email),
          ("name", Json.str u.name), ("exp", Json.num (now + 2592000000))]) ∧
    MAX_AGE_SECONDS = 2592000 ∧
    cookieSegments ⟨"u", "e", "n", none⟩ 0 true =
      ["google_auth=" ++
        btoa (jsonStringify (Json.obj [("userId", Json.str "u"), ("email", Json.str "e"),
          ("name", Json.str "n"), ("exp", Json.num 2592000000)])),
       "Max-Age=2592000", "Path=/", "SameSite=Lax", "HttpOnly", "Secure"] ∧
    cookieSegments ⟨"u", "e", "n", none⟩ 0 false =
      ["google_auth=" ++ sessionTokenOf ⟨"u", "e", "n", none⟩ 0,
       "Max-Age=2592000", "Path=/", "SameSite=Lax", "HttpOnly"] :=
  ⟨fun _ _ _ _ => rfl, rfl, fun _ _ => rfl, rfl, rfl, rfl⟩

/-! ### Round-trip assembly lemmas -/

theorem filterMap_nonempty_self (l : List String) (h : ∀ k ∈ l, k ≠ "") :
    l.filterMap (fun k => if k ≠ "" then some k else none) = l := by
  induction l with
  | nil => rfl
  | cons a rest ih =>
      rw [List.filterMap_cons]
      rw [if_pos (h a (List.mem_cons_self a rest))]
      rw [ih (fun k hk => h k (List.mem_cons_of_mem a hk))]

/-- The final `data` object of a keyed Read over distinct keys: every
requested key in request order, carrying the stored value of its own table
when present and `null` otherwise. -/
theorem handleGet_data (st : Store) (uid : String) (K : List String) (hnd : K.Nodup)
    (g : String → Option String)
    (hg : ∀ k ∈ K, storeGet st (getTableForKey k) uid k = g k) :
    overlayRows
        (selectRows st uid TableName.playback_store
          (K.filter (fun k => decide (getTableForKey k = TableName.playback_store))) ++
         selectRows st uid TableName.favorites_store
          (K.filter (fun k => decide (getTableForKey k = TableName.favorites_store))))
        (seedNulls K) =
      K.map (fun k => (k, g k)) := by
  set Kp := K.filter (fun k => decide (getTableForKey k = TableName.playback_store)) with hKp
  set Kf := K.filter (fun k => decide (getTableForKey k = TableName.favorites_store)) with hKf
  set rows := selectRows st uid TableName.playback_store Kp ++
    selectRows st uid TableName.favorites_store Kf with hrows
  have hKpK : ∀ a ∈ Kp, a ∈ K := fun a ha => List.mem_of_mem_filter ha
  have hKfK : ∀ a ∈ Kf, a ∈ K := fun a ha => List.mem_of_mem_filter ha
  have hrowsK : ∀ r ∈ rows, r.1 ∈ K := by
    intro r hr
    rcases List.mem_append.mp hr with h | h
    · exact hKpK _ (mem_of_mem_selectRows _ _ _ _ _ h)
    · exact hKfK _ (mem_of_mem_selectRows _ _ _ _ _ h)
  have hrowsNd : (rows.map Prod.fst).Nodup := by
    rw [hrows, List.map_append]
    refine List.Nodup.append ?_ ?_ ?_
    · exact (selectRows_fst_sublist st uid TableName.playback_store Kp).nodup
        (hnd.filter _)
    · exact (selectRows_fst_sublist st uid TableName.favorites_store Kf).nodup
        (hnd.filter _)
    · intro a ha hb
      have hap : a ∈ Kp := (selectRows_fst_sublist st uid TableName.playback_store Kp).subset ha
      have haf : a ∈ Kf := (selectRows_fst_sublist st uid TableName.favorites_store Kf).subset hb
      rw [hKp] at hap
      rw [hKf] at haf
      have h1 : getTableForKey a = TableName.playback_store :=
        of_decide_eq_true ((List.mem_filter.mp hap).2)
      have h2 : getTableForKey a = TableName.favorites_store :=
        of_decide_eq_true ((List.mem_filter.mp haf).2)
      rw [h1] at h2
      cases h2
  rw [seedNulls_eq_map K hnd,
    overlayRows_map K rows (fun _ => (none : Option String)) hnd hrowsK]
  refine List.map_congr_left ?_
  intro k hk
  have hupd : updFun (fun _ => (none : Option String)) rows k = g k := by
    cases hv : g k with
    | some v =>
        refine updFun_mem _ rows k v hrowsNd ?_
        cases ht : getTableForKey k with
        | playback_store =>
            refine List.mem_append_left _ (mem_selectRows st uid _ Kp k v ?_ ?_)
            · exact List.mem_filter.mpr ⟨hk, decide_eq_true ht⟩
            · rw [← ht, hg k hk, hv]
        | favorites_store =>
            refine List.mem_append_right _ (mem_selectRows st uid _ Kf k v ?_ ?_)
            · exact List.mem_filter.mpr ⟨hk, decide_eq_true ht⟩
            · rw [← ht, hg k hk, hv]
    | none =>
        refine updFun_of_not_mem _ rows k ?_
        intro hmem
        obtain ⟨r, hr, hrk⟩ := List.mem_map.mp hmem
        have hstore : storeGet st (getTableForKey r.1) uid r.1 = g r.1 := hg r.1 (hrowsK r hr)
        rcases List.mem_append.mp hr with h | h
        · have hmemf := mem_of_mem_selectRows _ _ _ _ _ h
          rw [hKp] at hmemf
          have h1 : getTableForKey r.1 = TableName.playback_store :=
            of_decide_eq_true ((List.mem_filter.mp hmemf).2)
          obtain ⟨a, ha, hav⟩ := List.mem_filterMap.mp h
          cases hs : storeGet st TableName.playback_store uid a with
          | none => rw [hs] at hav; cases hav
          | some w =>
              rw [hs] at hav
              simp only [Option.map_some'] at hav
              cases hav
              rw [h1, hs] at hstore
              rw [hrk] at hstore
              rw [hv] at hstore
              cases hstore
        · have hmemf := mem_of_mem_selectRows _ _ _ _ _ h
          rw [hKf] at hmemf
          have h1 : getTableForKey r.1 = TableName.favorites_store :=
            of_decide_eq_true ((List.mem_filter.mp hmemf).2)
          obtain ⟨a, ha, hav⟩ := List.mem_filterMap.mp h
          cases hs : storeGet st TableName.favorites_store uid a with
          | none => rw [hs] at hav; cases hav
          | some w =>
              rw [hs] at hav
              simp only [Option.map_some'] at hav
              cases hav
              rw [h1, hs] at hstore
              rw [hrk] at hstore
              rw [hv] at hstore
              cases hstore
  rw [hupd]

theorem plookup_of_mem (m : List (String × String)) (p : String × String)
    (hnd : (m.map Prod.fst).Nodup) (hp : p ∈ m) : plookup m p.1 = some p.2 := by
  induction m with
  | nil => cases hp
  | cons q rest ih =>
      rcases List.mem_cons.mp hp with h | h
      · rw [← h]
        simp [plookup]
      · simp only [List.map_cons, List.nodup_cons] at hnd
        have hq : ¬ q.1 = p.1 := by
          intro hx
          exact hnd.1 (hx ▸ List.mem_map_of_mem Prod.fst h)
        simp only [plookup, if_neg hq]
        exact ih hnd.2 h

/-- C1: with a valid session and a bound database, a Write of the mapping
`{k : v for (k, v) in m}` (non-empty, distinct non-empty keys) followed by a
Read of the keys of `m` returns a data map equal to exactly that mapping. -/
theorem write_read_roundtrip (now : Int) (c : CookieState) (uid : String) (st : Store)
    (m : List (String × String))
    (hauth : getUserIdFromRequest now c = some uid)
    (hne : m ≠ [])
    (hnd : (m.map Prod.fst).Nodup)
    (hkeys : ∀ p ∈ m, p.1 ≠ "") :
    handleGet now c
        (handlePost now c (some st)
          (some (Json.obj (m.map (fun p => (p.1, Json.str p.2)))))).2
        false (m.map Prod.fst) =
      jsonResponse (Json.obj [("d1Available", Json.bool true),
        ("data", Json.obj (m.map (fun p => (p.1, Json.str p.2))))]) 200 := by
  have hfilter : (m.map (fun p => (p.1, Json.str p.2))).filter (fun p => decide (p.1 ≠ "")) =
      m.map (fun p => (p.1, Json.str p.2)) := by
    refine List.filter_eq_self.mpr ?_
    intro p hp
    obtain ⟨q, hq, rfl⟩ := List.mem_map.mp hp
    exact decide_eq_true (hkeys q hq)
  have hmapne : m.map (fun p => (p.1, Json.str p.2)) ≠ [] := by
    simpa using hne
  have hlen : ¬ ((m.map (fun p => (p.1, Json.str p.2))).filter
      (fun p => decide (p.1 ≠ ""))).length = 0 := by
    rw [hfilter]
    simpa [List.length_eq_zero] using hmapne
  have hentries : (m.map (fun p => (p.1, Json.str p.2))).map
      (fun p => (p.1, storedString p.2)) = m := by
    rw [List.map_map]
    have hcg : ∀ p ∈ m,
        ((fun p => (p.1, storedString p.2)) ∘ (fun p => (p.1, Json.str p.2))) p = id p := by
      intro p hp
      simp [storedString, jsToString]
    rw [List.map_congr_left hcg, List.map_id]
  have hpost : (handlePost now c (some st)
      (some (Json.obj (m.map (fun p => (p.1, Json.str p.2)))))).2 =
      some (writeEntries uid m st) := by
    simp only [handlePost, hauth]
    rw [hfilter, if_neg (by rw [hfilter] at hlen; exact hlen), hentries]
  rw [hpost]
  have hKpos : (m.map Prod.fst).length > 0 :=
    List.length_pos.mpr (by simpa using hne)
  simp only [handleGet, hauth, groupKeys_eq, if_neg Bool.false_ne_true, if_pos hKpos]
  have hg : ∀ k ∈ m.map Prod.fst,
      storeGet (writeEntries uid m st) (getTableForKey k) uid k =
        (fun k => plookup m k) k := by
    intro k hk
    obtain ⟨p, hp, rfl⟩ := List.mem_map.mp hk
    exact (writeEntries_get_mem uid m st p.1 p.2 hnd (by simpa using hp)).trans
      (plookup_of_mem m p hnd hp).symm
  rw [handleGet_data (writeEntries uid m st) uid (m.map Prod.fst) hnd
    (fun k => plookup m k) hg]
  have hmapeq : (m.map Prod.fst).map (fun k => (k, plookup m k)) =
      m.map (fun p => (p.1, some p.2)) := by
    rw [List.map_map]
    refine List.map_congr_left ?_
    intro p hp
    simp [plookup_of_mem m p hnd hp]
  rw [hmapeq]
  have hjson : jmapToJson (m.map (fun p => (p.1, some p.2))) =
      Json.obj (m.map (fun p => (p.1, Json.str p.2))) := by
    rw [jmapToJson, List.map_map]
    rfl
  rw [hjson]

/-- C1 witness: writing `{"volume":"80","favoriteSongs":"[1,2,3]"}` with a
valid session against a bound empty database and reading those two keys back
returns exactly that mapping. -/
theorem write_read_roundtrip_witness :
    handleGet 0 (CookieState.valid (SessionData.mk (some "u") none none (some 10)))
        (handlePost 0 (CookieState.valid (SessionData.mk (some "u") none none (some 10)))
          (some [])
          (some (Json.obj
            (([("volume", "80"), ("favoriteSongs", "[1,2,3]")] : List (String × String)).map
              (fun p => (p.1, Json.str p.2)))))).2
        false
        (([("volume", "80"), ("favoriteSongs", "[1,2,3]")] : List (String × String)).map
          Prod.fst) =
      jsonResponse (Json.obj [("d1Available", Json.bool true),
        ("data", Json.obj
          (([("volume", "80"), ("favoriteSongs", "[1,2,3]")] : List (String × String)).map
            (fun p => (p.1, Json.str p.2))))]) 200 :=
  write_read_roundtrip 0 (CookieState.valid (SessionData.mk (some "u") none none (some 10)))
    "u" [] [("volume", "80"), ("favoriteSongs", "[1,2,3]")] rfl (by decide) (by decide)
    (by decide)

/-- C2: with a valid session and a bound database, a Delete of a non-empty
set of distinct non-empty keys followed by a Read of those keys returns
`{k : null for k in K}`. -/
theorem delete_read_nulls (now : Int) (c : CookieState) (uid : String) (st : Store)
    (keys : List String)
    (hauth : getUserIdFromRequest now c = some uid)
    (hne : keys ≠ [])
    (hnd : keys.Nodup)
    (hkeys : ∀ k ∈ keys, k ≠ "") :
    handleGet now c
        (handleDelete now c (some st) (some (Json.arr (keys.map Json.str)))).2
        false keys =
      jsonResponse (Json.obj [("d1Available", Json.bool true),
        ("data", Json.obj (keys.map (fun k => (k, Json.null))))]) 200 := by
  have hparse : parseDeleteKeys (some (Json.arr (keys.map Json.str))) = keys := by
    show (keys.map Json.str).filterMap _ = keys
    rw [List.filterMap_map]
    exact filterMap_nonempty_self keys hkeys
  have hlen : ¬ (parseDeleteKeys (some (Json.arr (keys.map Json.str)))).length = 0 := by
    rw [hparse]
    simpa [List.length_eq_zero] using hne
  have hdel : (handleDelete now c (some st) (some (Json.arr (keys.map Json.str)))).2 =
      some (deleteEntries uid keys st) := by
    simp only [handleDelete, hauth]
    rw [if_neg hlen, hparse]
  rw [hdel]
  have hKpos : keys.length > 0 := List.length_pos.mpr hne
  simp only [handleGet, hauth, groupKeys_eq, if_neg Bool.false_ne_true, if_pos hKpos]
  have hg : ∀ k ∈ keys,
      storeGet (deleteEntries uid keys st) (getTableForKey k) uid k =
        (fun _ => (none : Option String)) k :=
    fun k hk => deleteEntries_get_mem uid keys st k hk
  rw [handleGet_data (deleteEntries uid keys st) uid keys hnd
    (fun _ => (none : Option String)) hg]
  have hjson : jmapToJson (keys.map (fun k => (k, (none : Option String)))) =
      Json.obj (keys.map (fun k => (k, Json.null))) := by
    rw [jmapToJson, List.map_map]
    rfl
  rw [hjson]

/-- C2 witness: deleting the keys `a` and `favoriteSongs` (the first of
which holds a stored value) and reading them back returns both as `null`. -/
theorem delete_read_nulls_witness :
    handleGet 0 (CookieState.valid (SessionData.mk (some "u") none none (some 10)))
        (handleDelete 0 (CookieState.valid (SessionData.mk (some "u") none none (some 10)))
          (some [Row.mk TableName.playback_store "u" "a" "x"])
          (some (Json.arr ((["a", "favoriteSongs"] : List String).map Json.str)))).2
        false ["a", "favoriteSongs"] =
      jsonResponse (Json.obj [("d1Available", Json.bool true),
        ("data", Json.obj ((["a", "favoriteSongs"] : List String).map
          (fun k => (k, Json.null))))]) 200 :=
  delete_read_nulls 0 (CookieState.valid (SessionData.mk (some "u") none none (some 10)))
    "u" [Row.mk TableName.playback_store "u" "a" "x"] ["a", "favoriteSongs"] rfl
    (by decide) (by decide) (by decide)

end Solara
